import Mathlib

/-!
Verification development for the place-relevance scoring and classification
pipeline of the PlaceTimeline backend (`src/utils/wiki/*.js`,
`src/services/wikiService.js`).

The JavaScript source is shallowly embedded: strings are Lean `String`s
(lists of Unicode scalar values, which agree with JS strings on the Basic
Multilingual Plane), JS `null`/`undefined` arguments are modelled with
`Option String`, thrown exceptions with `Except Unit`, and JS numbers with
exact rationals `ℚ` (every constant appearing in the source — 0.1, 0.2,
0.3, 0.5, 0.6, 0.7, 0.8, 0.9, 1.0 — is a decimal literal, and no claim in
this development depends on sub-ulp double rounding).  `String.toLowerCase`
and Unicode NFD decomposition are table-driven over the Basic Latin and
Latin-1 repertoire actually exercised by the pipeline; characters outside
the tables are left unchanged.
-/

set_option maxRecDepth 100000

namespace PlaceTimeline

/-! ## Character classes used by the JS regexes -/

/-- JS regex `\w` (no `u` flag): `[A-Za-z0-9_]`
(`a`–`z`, `A`–`Z`, `0`–`9`, `_` as code points). -/
def isWordChar (c : Char) : Bool :=
  (0x61 ≤ c.toNat && c.toNat ≤ 0x7A) || (0x41 ≤ c.toNat && c.toNat ≤ 0x5A) ||
  (0x30 ≤ c.toNat && c.toNat ≤ 0x39) || c.toNat = 0x5F

/-- JS regex `\s`, which is also the exact character set removed by
`String.prototype.trim`: TAB LF VT FF CR SPACE NBSP OGHAM, the U+2000
block spaces, LS PS NNBSP MMSP IDSP and the BOM. -/
def isSpaceJS (c : Char) : Bool :=
  c.toNat = 0x20 || c.toNat = 0x09 || c.toNat = 0x0A || c.toNat = 0x0B ||
  c.toNat = 0x0C || c.toNat = 0x0D ||
  c.toNat = 0xA0 || c.toNat = 0x1680 || (0x2000 ≤ c.toNat && c.toNat ≤ 0x200A) ||
  c.toNat = 0x2028 || c.toNat = 0x2029 || c.toNat = 0x202F || c.toNat = 0x205F ||
  c.toNat = 0x3000 || c.toNat = 0xFEFF

/-- The Unicode combining-diacritical-marks block `[̀-ͯ]`
removed by `normalizeText`. -/
def isCombiningMark (c : Char) : Bool :=
  0x300 ≤ c.toNat && c.toNat ≤ 0x36F

/-! ## `String.prototype.toLowerCase`, table-driven -/

/-- Lower-case table over Basic Latin and Latin-1 (the repertoire the
pipeline exercises); `×` (U+00D7) has no lower case. -/
def lowerTable : List (Char × Char) :=
  [('A', 'a'), ('B', 'b'), ('C', 'c'), ('D', 'd'), ('E', 'e'), ('F', 'f'),
   ('G', 'g'), ('H', 'h'), ('I', 'i'), ('J', 'j'), ('K', 'k'), ('L', 'l'),
   ('M', 'm'), ('N', 'n'), ('O', 'o'), ('P', 'p'), ('Q', 'q'), ('R', 'r'),
   ('S', 's'), ('T', 't'), ('U', 'u'), ('V', 'v'), ('W', 'w'), ('X', 'x'),
   ('Y', 'y'), ('Z', 'z'),
   ('À', 'à'), ('Á', 'á'), ('Â', 'â'), ('Ã', 'ã'), ('Ä', 'ä'), ('Å', 'å'),
   ('Æ', 'æ'), ('Ç', 'ç'), ('È', 'è'), ('É', 'é'), ('Ê', 'ê'), ('Ë', 'ë'),
   ('Ì', 'ì'), ('Í', 'í'), ('Î', 'î'), ('Ï', 'ï'), ('Ð', 'ð'), ('Ñ', 'ñ'),
   ('Ò', 'ò'), ('Ó', 'ó'), ('Ô', 'ô'), ('Õ', 'õ'), ('Ö', 'ö'), ('Ø', 'ø'),
   ('Ù', 'ù'), ('Ú', 'ú'), ('Û', 'û'), ('Ü', 'ü'), ('Ý', 'ý'), ('Þ', 'þ')]

def jsLowerChar (c : Char) : Char :=
  match lowerTable.find? (fun e => e.1 == c) with
  | some e => e.2
  | none => c

/-! ## Unicode NFD decomposition, table-driven -/

/-- Canonical (NFD) decompositions over Latin-1.  The pipeline applies NFD
after `toLowerCase`, so the upper-case rows are unreachable there, but they
are kept because real NFD decomposes both cases. -/
def nfdTable : List (Char × List Char) :=
  [('à', ['a', '̀']), ('á', ['a', '́']), ('â', ['a', '̂']),
   ('ã', ['a', '̃']), ('ä', ['a', '̈']), ('å', ['a', '̊']),
   ('ç', ['c', '̧']), ('è', ['e', '̀']), ('é', ['e', '́']),
   ('ê', ['e', '̂']), ('ë', ['e', '̈']), ('ì', ['i', '̀']),
   ('í', ['i', '́']), ('î', ['i', '̂']), ('ï', ['i', '̈']),
   ('ñ', ['n', '̃']), ('ò', ['o', '̀']), ('ó', ['o', '́']),
   ('ô', ['o', '̂']), ('õ', ['o', '̃']), ('ö', ['o', '̈']),
   ('ù', ['u', '̀']), ('ú', ['u', '́']), ('û', ['u', '̂']),
   ('ü', ['u', '̈']), ('ý', ['y', '́']), ('ÿ', ['y', '̈']),
   ('À', ['A', '̀']), ('Á', ['A', '́']), ('Â', ['A', '̂']),
   ('Ã', ['A', '̃']), ('Ä', ['A', '̈']), ('Å', ['A', '̊']),
   ('Ç', ['C', '̧']), ('È', ['E', '̀']), ('É', ['E', '́']),
   ('Ê', ['E', '̂']), ('Ë', ['E', '̈']), ('Ì', ['I', '̀']),
   ('Í', ['I', '́']), ('Î', ['I', '̂']), ('Ï', ['I', '̈']),
   ('Ñ', ['N', '̃']), ('Ò', ['O', '̀']), ('Ó', ['O', '́']),
   ('Ô', ['O', '̂']), ('Õ', ['O', '̃']), ('Ö', ['O', '̈']),
   ('Ù', ['U', '̀']), ('Ú', ['U', '́']), ('Û', ['U', '̂']),
   ('Ü', ['U', '̈']), ('Ý', ['Y', '́'])]

def nfdChar (c : Char) : List Char :=
  match nfdTable.find? (fun e => e.1 == c) with
  | some e => e.2
  | none => [c]

/-! ## `trim` and `normalizeText` (src/utils/wiki/textNormalization.js) -/

/-- `String.prototype.trim`: drop leading then trailing JS whitespace. -/
def jsTrim (l : List Char) : List Char :=
  ((l.dropWhile isSpaceJS).reverse.dropWhile isSpaceJS).reverse

def jsTrimStr (s : String) : String :=
  String.mk (jsTrim s.data)

/-- The body of `normalizeText` on a non-empty string:
lower-case, NFD-decompose, strip combining marks (`/[̀-ͯ]/g`),
strip non-word non-space characters (`/[^\w\s]/g`), trim. -/
def normChars (l : List Char) : List Char :=
  jsTrim ((((l.map jsLowerChar).flatMap nfdChar).filter
    (fun c => !isCombiningMark c)).filter (fun c => isWordChar c || isSpaceJS c))

/-- `normalizeText(text)`; `none` models a JS `null`/`undefined` argument,
which like `""` is falsy and returns `""`. -/
def normalizeText (text : Option String) : String :=
  match text with
  | none => ""
  | some s => if s = "" then "" else String.mk (normChars s.data)

/-! ## `cleanSnippet` (src/utils/wiki/textNormalization.js) -/

/-- `/<[^>]*>/g` removal: a match runs from a `<` to the first following
`>`; a `<` with no later `>` matches nothing and is kept. -/
def stripTags : List Char → List Char
  | [] => []
  | c :: t =>
    if c = '<' then
      match h : t.dropWhile (fun d => !(d = '>')) with
      | [] => c :: stripTags t
      | _ :: rest =>
        have : rest.length < t.length + 1 := by
          have h2 := (List.dropWhile_sublist (l := t) (fun d => !(d = '>'))).length_le
          rw [h] at h2
          simp only [List.length_cons] at h2
          omega
        stripTags rest
    else c :: stripTags t
  termination_by l => l.length

def isEntChar (c : Char) : Bool :=
  ('a' ≤ c && c ≤ 'z') || ('A' ≤ c && c ≤ 'Z') || ('0' ≤ c && c ≤ '9') || c = '#'

/-- `/&[a-zA-Z0-9#]+;/g` → `" "`: a `&` followed by a non-empty run of
entity characters and a `;` becomes one space. -/
def stripEntities : List Char → List Char
  | [] => []
  | c :: t =>
    if c = '&' then
      let run := t.takeWhile isEntChar
      if run.isEmpty then c :: stripEntities t
      else
        match h : t.drop run.length with
        | ';' :: rest =>
          have : rest.length < t.length + 1 := by
            have h2 : (t.drop run.length).length ≤ t.length := by
              simp [List.length_drop]
            rw [h] at h2
            simp only [List.length_cons] at h2
            omega
          ' ' :: stripEntities rest
        | _ => c :: stripEntities t
    else c :: stripEntities t
  termination_by l => l.length

/-- `/\s+/g` → `" "`: collapse each whitespace run to a single space. -/
def collapseWS : List Char → List Char
  | [] => []
  | c :: t =>
    if isSpaceJS c then
      have : (t.dropWhile isSpaceJS).length < t.length + 1 :=
        Nat.lt_succ_of_le (List.dropWhile_sublist isSpaceJS).length_le
      ' ' :: collapseWS (t.dropWhile isSpaceJS)
    else c :: collapseWS t
  termination_by l => l.length

/-- `cleanSnippet(snippet)`: strip tags, strip entities, collapse
whitespace, trim; falsy input gives `""`. -/
def cleanSnippet (snippet : Option String) : String :=
  match snippet with
  | none => ""
  | some s =>
    if s = "" then ""
    else String.mk (jsTrim (collapseWS (stripEntities (stripTags s.data))))

/-! ## Substring search (JS `String.prototype.includes`) and `split(/\s+/)` -/

/-- `leadsWith w l`: `w` is an initial segment of `l`. -/
def leadsWith : List Char → List Char → Bool
  | [], _ => true
  | _ :: _, [] => false
  | a :: as, b :: bs => a = b && leadsWith as bs

/-- `hay.includes(needle)` as a substring test. -/
def hasSub (hay needle : List Char) : Bool :=
  match hay with
  | [] => needle.isEmpty
  | _ :: t => leadsWith needle hay || hasSub t needle

/-- `s.split(/\s+/)`: `""` gives `[""]`, and a leading/trailing separator
run produces a leading/trailing empty segment. -/
def splitRuns : List Char → List (List Char)
  | [] => [[]]
  | c :: cs =>
    let r := splitRuns cs
    if isSpaceJS c then
      match cs with
      | d :: _ => if isSpaceJS d then r else [] :: r
      | [] => [] :: r
    else
      match r with
      | h :: t => (c :: h) :: t
      | [] => [[c]]

/-! ## `calculateConfidence` (src/utils/wiki/confidenceScoring.js) -/

/-- `calculateConfidence(query, title, snippet)` for a string query (the
only throwing access in the JS body is `query.length`, so a string query
never throws); `title`/`snippet` may be null. -/
def calculateConfidence (query : String) (title snippet : Option String) : ℚ :=
  let nq := normalizeText (some query)
  let nt := normalizeText title
  let ns := normalizeText snippet
  let base : ℚ :=
    if nq = nt then 1
    else if hasSub nt.data nq.data then 9/10
    else if hasSub nq.data nt.data then 4/5
    else
      let qws := splitRuns nq.data
      let tws := splitRuns nt.data
      let wordMatches := qws.countP
        (fun w => decide (2 < w.length) &&
          tws.any (fun tw => hasSub tw w || hasSub w tw))
      let snippetMatches := qws.countP
        (fun w => decide (2 < w.length) && hasSub ns.data w)
      (wordMatches : ℚ) / (qws.length : ℚ) * (7/10) +
        (snippetMatches : ℚ) / (qws.length : ℚ) * (3/10)
  let base2 := if query.length < 3 then base * (1/2) else base
  min (max base2 0) 1

/-- `calculateConfidence` with a possibly-null query: a null or undefined
query reaches `query.length` in the length-penalty step and throws a
`TypeError`, modelled as `Except.error ()`. -/
def calculateConfidenceJS (query title snippet : Option String) : Except Unit ℚ :=
  match query with
  | none => .error ()
  | some q => .ok (calculateConfidence q title snippet)

/-! ## Place detection (src/utils/wiki/placeDetection.js) -/

inductive PlaceType
  | building
  | city
  | landmark
  | area
deriving DecidableEq, Repr

/-- `{isPlace, placeType, confidence}` returned by `isPlace`; `placeType`
is `none` where the JS returns `null`. -/
structure PlaceResult where
  isPlace : Bool
  placeType : Option PlaceType
  confidence : ℚ
deriving DecidableEq, Repr

/-- Keyword list of `placeIndicators.building` (weight 0.8), verbatim. -/
def buildingKeywords : List String :=
  ["tower", "building", "palace", "castle", "cathedral", "church", "mosque",
   "temple", "monument", "statue", "bridge", "stadium", "museum", "library",
   "theater", "theatre", "opera", "hotel", "station", "airport", "harbor",
   "harbour", "port", "fort", "fortress", "wall", "gate", "arch", "dome",
   "spire", "skyscraper", "mansion", "villa", "chateau", "basilica", "chapel",
   "synagogue", "shrine", "obelisk", "lighthouse", "windmill", "mill",
   "factory", "warehouse", "market", "bazaar", "plaza", "square", "piazza"]

/-- Keyword list of `placeIndicators.city` (weight 0.9), verbatim —
including the duplicated `"downtown"`. -/
def cityKeywords : List String :=
  ["city", "town", "village", "municipality", "metropolis", "capital",
   "borough", "district", "neighborhood", "neighbourhood", "quarter",
   "downtown", "uptown", "suburb", "suburbs", "urban", "metropolitan",
   "municipal", "civic", "downtown"]

/-- Keyword list of `placeIndicators.landmark` (weight 0.7), verbatim. -/
def landmarkKeywords : List String :=
  ["landmark", "monument", "memorial", "park", "garden", "plaza", "square",
   "piazza", "boulevard", "avenue", "street", "road", "highway", "bridge",
   "tunnel", "valley", "mountain", "hill", "peak", "river", "lake", "bay",
   "beach", "coast", "shore", "island", "peninsula", "desert", "forest",
   "jungle", "canyon", "gorge", "waterfall", "volcano", "crater", "cave",
   "grotto", "cliff", "plateau", "plain", "prairie"]

/-- Keyword list of `placeIndicators.area` (weight 0.6), verbatim —
including the duplicated `"territory"`. -/
def areaKeywords : List String :=
  ["region", "area", "zone", "district", "province", "state", "county",
   "territory", "republic", "kingdom", "empire", "nation", "country",
   "continent", "hemisphere", "peninsula", "archipelago", "island",
   "islands", "coast", "shoreline", "border", "frontier", "boundary",
   "territory", "colony", "settlement", "outpost"]

/-- `Object.entries(placeIndicators)` in insertion order, with weights. -/
def placeCategories : List (PlaceType × List String × ℚ) :=
  [(.building, buildingKeywords, 4/5), (.city, cityKeywords, 9/10),
   (.landmark, landmarkKeywords, 7/10), (.area, areaKeywords, 3/5)]

/-- `negativeIndicators`, verbatim — including the duplicated `"person"`. -/
def negativeIndicators : List String :=
  ["person", "people", "human", "man", "woman", "child", "baby", "family",
   "person", "artist", "writer", "author", "poet", "musician", "singer",
   "actor", "actress", "director", "producer", "scientist", "inventor",
   "philosopher", "politician", "president", "king", "queen", "emperor",
   "empress", "prince", "princess", "war", "battle", "conflict",
   "revolution", "movement", "organization", "company", "corporation",
   "business", "industry", "technology", "invention", "discovery", "theory",
   "concept", "idea", "philosophy", "religion", "belief", "culture",
   "language", "music", "art", "literature", "book", "novel", "poem",
   "song", "movie", "film", "television", "radio", "newspaper", "magazine",
   "website", "software", "application", "game", "sport", "team", "player",
   "coach"]

/-- Alternation of the first `placePatterns` regex (building nouns). -/
def patternWords1 : List String := buildingKeywords

/-- Alternation of the second `placePatterns` regex (city nouns; unlike
`cityKeywords` it lists `downtown` once). -/
def patternWords2 : List String :=
  ["city", "town", "village", "municipality", "metropolis", "capital",
   "borough", "district", "neighborhood", "neighbourhood", "quarter",
   "downtown", "uptown", "suburb", "suburbs", "urban", "metropolitan",
   "municipal", "civic"]

/-- Alternation of the third `placePatterns` regex (geographic features;
unlike `landmarkKeywords` it omits `landmark`, `monument`, `memorial`). -/
def patternWords3 : List String :=
  ["park", "garden", "plaza", "square", "piazza", "boulevard", "avenue",
   "street", "road", "highway", "bridge", "tunnel", "valley", "mountain",
   "hill", "peak", "river", "lake", "bay", "beach", "coast", "shore",
   "island", "peninsula", "desert", "forest", "jungle", "canyon", "gorge",
   "waterfall", "volcano", "crater", "cave", "grotto", "cliff", "plateau",
   "plain", "prairie"]

/-- One step of the `\b(w)\b` test: word boundary behind the current
position, `w` ahead, and no word character directly after `w`. -/
def wordHere (prev : Option Char) (l w : List Char) : Bool :=
  (match prev with
   | none => true
   | some d => !isWordChar d) &&
  leadsWith w l &&
  (match (l.drop w.length).head? with
   | none => true
   | some d => !isWordChar d)

/-- `\b(w₁|w₂|…)\b.test(text)`: some alternative occurs as a whole word.
The combined text this is applied to is already lower-cased by
`normalizeText`, so the `/i` flag in the source has no effect. -/
def wholeWordAny (prev : Option Char) (l : List Char) (ws : List String) : Bool :=
  ws.any (fun w => wordHere prev l w.data) ||
  match l with
  | [] => false
  | c :: t => wholeWordAny (some c) t ws

/-- Keyword-ratio score of one category:
`(#keywords found in combined / #keywords) * weight`. -/
def categoryScore (combined : List Char) (cat : PlaceType × List String × ℚ) : ℚ :=
  ((cat.2.1.countP (fun kw => hasSub combined (normalizeText (some kw)).data) : ℚ) /
    (cat.2.1.length : ℚ)) * cat.2.2

/-- One iteration of the `for … of Object.entries(placeIndicators)` loop:
`if (confidence > maxConfidence)` update the tracked best category. -/
def bestStep (combined : List Char) (st : ℚ × Option PlaceType)
    (cat : PlaceType × List String × ℚ) : ℚ × Option PlaceType :=
  let c := categoryScore combined cat
  if st.1 < c then (c, some cat.1) else st

/-- The category loop: track the category with the strictly greatest
score, starting from `maxConfidence = 0`, `bestPlaceType = null`. -/
def bestCategory (combined : List Char) : ℚ × Option PlaceType :=
  placeCategories.foldl (bestStep combined) (0, none)

/-- The pattern-fallback raise: if some place pattern matched and the best
keyword score is below 0.3, raise it to 0.3 and default the type to
`landmark` when none was set (`bestPlaceType || "landmark"`). -/
def raiseSt (st : ℚ × Option PlaceType) (hasPlacePattern : Bool) :
    ℚ × Option PlaceType :=
  if hasPlacePattern && st.1 < 3/10 then
    ((3/10 : ℚ), some (st.2.getD .landmark))
  else st

/-- The tail of `isPlace`: apply the pattern fallback, then the decision
threshold `maxConfidence >= 0.2`; `placeType` is the winning category when
the threshold is met, else `null`. -/
def finishPlace (st : ℚ × Option PlaceType) (hasPlacePattern : Bool) :
    PlaceResult :=
  ⟨decide ((1/5 : ℚ) ≤ (raiseSt st hasPlacePattern).1),
   if decide ((1/5 : ℚ) ≤ (raiseSt st hasPlacePattern).1) then
     (raiseSt st hasPlacePattern).2
   else none,
   (raiseSt st hasPlacePattern).1⟩

/-- The normalized `title + " " + snippet` blob scored by `isPlace`. -/
def combinedText (title snippet : Option String) : List Char :=
  (normalizeText title ++ " " ++ normalizeText snippet).data

/-- `isPlace(title, snippet)`. -/
def isPlace (title snippet : Option String) : PlaceResult :=
  -- `if (!title || !snippet)`: null, undefined and "" are the falsy cases
  if title = none || title = some "" || snippet = none || snippet = some "" then
    ⟨false, none, 0⟩
  else if negativeIndicators.any
      (fun ind =>
        hasSub (combinedText title snippet) (normalizeText (some ind)).data) then
    ⟨false, none, 1/10⟩
  else
    finishPlace (bestCategory (combinedText title snippet))
      ([patternWords1, patternWords2, patternWords3].any
        (fun ws => wholeWordAny none (combinedText title snippet) ws))

/-! ## `calculatePlaceConfidence` (src/utils/wiki/confidenceScoring.js) -/

def calculatePlaceConfidence (query : String) (title snippet : Option String) : ℚ :=
  let placeCheck := isPlace title snippet
  if !placeCheck.isPlace then 0
  else
    let base := calculateConfidence query title snippet
    let placeBoost := placeCheck.confidence * (1/5)
    let typeBonus : ℚ :=
      match placeCheck.placeType with
      | some .city => 1/10
      | some .building => 1/20
      | some .landmark => 1/20
      | some .area => 1/50
      | none => 0
    min (base + placeBoost + typeBonus) 1

/-- `calculatePlaceConfidence` with a possibly-null query: when the
candidate is not a place it returns 0 before ever touching the query;
otherwise a null query throws inside `calculateConfidence`. -/
def calculatePlaceConfidenceJS (query title snippet : Option String) :
    Except Unit ℚ :=
  if !(isPlace title snippet).isPlace then .ok 0
  else
    match query with
    | none => .error ()
    | some q => .ok (calculatePlaceConfidence q title snippet)

/-! ## Country extraction (src/utils/wiki/countryExtraction.js)

The three `countryPatterns` all have the shape
`\bW₁\s+(…\s+Wₙ\s+)([A-Z][a-z]+(?:\s+[A-Z][a-z]+)*)\s*[,.]` for literal
words `Wᵢ` (`in`; `of`; `located in`), matched case-sensitively and
globally.  They are embedded by a direct backtracking matcher. -/

def commonCountries : List String :=
  ["France", "Germany", "Italy", "Spain", "United Kingdom", "United States",
   "Japan", "China", "India", "Brazil", "Canada", "Australia", "Russia",
   "Mexico", "Argentina", "Chile", "Peru", "Colombia", "Venezuela", "Egypt",
   "South Africa", "Nigeria", "Kenya", "Morocco", "Tunisia", "Turkey",
   "Greece", "Portugal", "Netherlands", "Belgium", "Switzerland", "Austria",
   "Poland", "Czech Republic", "Hungary", "Romania", "Bulgaria", "Sweden",
   "Norway", "Denmark", "Finland", "Iceland", "Ireland"]

def isUpperAlpha (c : Char) : Bool := 'A' ≤ c && c ≤ 'Z'

def isLowerAlpha (c : Char) : Bool := 'a' ≤ c && c ≤ 'z'

/-- `[A-Z][a-z]+` (greedy; the run after the capital must be non-empty).
Returns the consumed characters and the rest. -/
def capWord (l : List Char) : Option (List Char × List Char) :=
  match l with
  | [] => none
  | c :: t =>
    if isUpperAlpha c then
      let low := t.takeWhile isLowerAlpha
      if low.isEmpty then none else some (c :: low, t.drop low.length)
    else none

/-- `(?:\s+[A-Z][a-z]+)*\s*[,.]` with the greedy star and regex
backtracking: take as many `\s+[A-Z][a-z]+` steps as possible, giving back
one step at a time when the tail `\s*[,.]` fails.  `fuel` only bounds the
recursion; every step consumes at least two characters, so
`fuel = l.length + 1` never runs out. -/
def capSeqEnd (fuel : Nat) (l : List Char) : Option (List Char × List Char) :=
  let endHere : Option (List Char × List Char) :=
    let sp := l.takeWhile isSpaceJS
    match (l.drop sp.length).head? with
    | some c =>
      if c = ',' || c = '.' then some (sp ++ [c], (l.drop sp.length).tail)
      else none
    | none => none
  match fuel with
  | 0 => none
  | fuel + 1 =>
    let sp := l.takeWhile isSpaceJS
    if sp.isEmpty then endHere
    else
      match capWord (l.drop sp.length) with
      | none => endHere
      | some (w, r) =>
        match capSeqEnd fuel r with
        | some (c2, rest) => some (sp ++ w ++ c2, rest)
        | none => endHere

/-- Match the literal pattern words, each followed by `\s+`. -/
def matchWordsAt (pws : List (List Char)) (l : List Char) :
    Option (List Char × List Char) :=
  match pws with
  | [] => some ([], l)
  | w :: ws =>
    if leadsWith w l then
      let r1 := l.drop w.length
      let sp := r1.takeWhile isSpaceJS
      if sp.isEmpty then none
      else
        match matchWordsAt ws (r1.drop sp.length) with
        | some (c, rest) => some (w ++ sp ++ c, rest)
        | none => none
    else none

/-- A whole-pattern attempt at the current position. -/
def matchPatternAt (pws : List (List Char)) (l : List Char) :
    Option (List Char × List Char) :=
  match matchWordsAt pws l with
  | none => none
  | some (c1, r1) =>
    match capWord r1 with
    | none => none
    | some (w, r2) =>
      match capSeqEnd (r2.length + 1) r2 with
      | none => none
      | some (c2, rest) => some (c1 ++ w ++ c2, rest)

/-- `summary.match(pattern)` with the `g` flag: collect the successive
leftmost matches, each search resuming after the previous match.  `prev`
is the character before the current position, for the `\b` test (the
pattern words start with word characters, so the boundary holds exactly
when `prev` is absent or not a word character). -/
def scanAll (fuel : Nat) (pws : List (List Char)) (prev : Option Char)
    (l : List Char) : List (List Char) :=
  match fuel with
  | 0 => []
  | fuel + 1 =>
    let boundary :=
      match prev with
      | none => true
      | some d => !isWordChar d
    let advance : List (List Char) :=
      match l with
      | [] => []
      | c :: t => scanAll fuel pws (some c) t
    if boundary then
      match matchPatternAt pws l with
      | some (m, rest) => m :: scanAll fuel pws m.getLast? rest
      | none => advance
    else advance

def asciiLower (c : Char) : Char :=
  if isUpperAlpha c then Char.ofNat (c.toNat + 32) else c

/-- Case-insensitive `leadsWith` (for the `/i` strip regex). -/
def ciLeads : List Char → List Char → Bool
  | [], _ => true
  | _ :: _, [] => false
  | a :: as, b :: bs => asciiLower a = asciiLower b && ciLeads as bs

/-- `match.replace(/^(in|of|located in)\s+/i, "")`: the alternatives are
tried in order and must be followed by at least one whitespace char. -/
def stripPrep (m : List Char) : List Char :=
  let tryOne : List Char → Option (List Char) := fun w =>
    if ciLeads w m then
      let r := m.drop w.length
      let sp := r.takeWhile isSpaceJS
      if sp.isEmpty then none else some (r.drop sp.length)
    else none
  match tryOne "in".data with
  | some r => r
  | none =>
    match tryOne "of".data with
    | some r => r
    | none =>
      match tryOne "located in".data with
      | some r => r
      | none => m

/-- `.replace(/[,.]$/, "")`. -/
def dropTrailPunct (m : List Char) : List Char :=
  match m.getLast? with
  | some c => if c = ',' || c = '.' then m.dropLast else m
  | none => m

/-- Strip the preposition and trailing punctuation from a raw match and
trim it, as in the inner loop of `extractCountryFromSummary`. -/
def cleanMatch (m : List Char) : String :=
  String.mk (jsTrim (dropTrailPunct (stripPrep m)))

def countryPatternWords : List (List (List Char)) :=
  [["in".data], ["of".data], ["located".data, "in".data]]

/-- `extractCountryFromSummary(summary)`: scan the three patterns in
declared order and the matches of each pattern in text order; return the
first cleaned match that is in `commonCountries`, else `null`. -/
def extractCountryFromSummary (summary : Option String) : Option String :=
  match summary with
  | none => none
  | some s =>
    if s = "" then none
    else
      countryPatternWords.findSome? (fun pws =>
        (scanAll (s.data.length + 1) pws none s.data).findSome? (fun m =>
          let c := cleanMatch m
          if commonCountries.contains c then some c else none))

/-! ## The ranking aggregator `searchSuggestions`
(src/services/wikiService.js)

The network is abstracted: the raw Wikipedia search hits arrive as a list
of `SearchResult`s, and the per-title summary fetch is an injected
collaborator `enrich : String → Option SummaryData`, where `none` models
the fetch throwing or timing out (the `catch` branch of the JS). -/

structure SearchResult where
  title : String
  snippet : String
  size : Int
  timestamp : String
deriving DecidableEq, Repr

/-- The fields of the summary response that `searchSuggestions` reads:
`data.thumbnail?.source` and `data.extract`. -/
structure SummaryData where
  thumbnail : Option String
  extract : Option String
deriving DecidableEq, Repr

structure Suggestion where
  title : String
  snippet : String
  confidence : ℚ
  thumbnail : Option String
  country : Option String
  size : Int
  timestamp : String
deriving DecidableEq, Repr

/-- JS `x || null` on a string-or-null value: `""` is falsy. -/
def orNull (o : Option String) : Option String :=
  match o with
  | some s => if s = "" then none else some s
  | none => none

/-- The body of the `searchResults.map` callback: confidence from
`calculateConfidence`, thumbnail/country from the summary fetch, both
`null` when the fetch fails. -/
def buildSuggestion (query : String) (enrich : String → Option SummaryData)
    (r : SearchResult) : Suggestion :=
  let tc : Option String × Option String :=
    match enrich r.title with
    | none => (none, none)
    | some d => (orNull d.thumbnail, orNull (extractCountryFromSummary d.extract))
  { title := r.title
    snippet := cleanSnippet (some r.snippet)
    confidence := calculateConfidence query (some r.title) (some r.snippet)
    thumbnail := tc.1
    country := tc.2
    size := r.size
    timestamp := r.timestamp }

/-- Stable insertion for descending confidence: an element is placed
before the first element whose confidence it reaches, so an earlier
element precedes later equal-confidence ones. -/
def insertDesc (s : Suggestion) : List Suggestion → List Suggestion
  | [] => [s]
  | y :: l => if y.confidence ≤ s.confidence then s :: y :: l else y :: insertDesc s l

/-- `suggestions.sort((a, b) => b.confidence - a.confidence)`: JS `sort`
is stable (ES2019), and a stable sort for a total preorder is unique, so
stable insertion sort is the same function. -/
def sortDesc : List Suggestion → List Suggestion
  | [] => []
  | x :: xs => insertDesc x (sortDesc xs)

/-- `searchSuggestions(query)` with the collaborators made explicit:
validate the query, build one `Suggestion` per raw hit, sort by
confidence descending and truncate to the return limit.  The thrown
`"Invalid search query"` is `Except.error ()`. -/
def searchSuggestions (query : String) (returnLimit : Nat)
    (results : List SearchResult) (enrich : String → Option SummaryData) :
    Except Unit (List Suggestion) :=
  if jsTrimStr query = "" then .error ()
  else
    let cleanQuery := jsTrimStr query
    .ok ((sortDesc (results.map (buildSuggestion cleanQuery enrich))).take returnLimit)

/-! ## Lemmas about the stable descending sort -/

theorem insertDesc_perm (s : Suggestion) (l : List Suggestion) :
    (insertDesc s l).Perm (s :: l) := by
  induction l with
  | nil => exact List.Perm.refl _
  | cons y t ih =>
    rw [insertDesc]
    split
    · exact List.Perm.refl _
    · exact ((ih.cons y).trans (List.Perm.swap s y t))

theorem sortDesc_perm (l : List Suggestion) : (sortDesc l).Perm l := by
  induction l with
  | nil => exact List.Perm.refl _
  | cons x xs ih => exact (insertDesc_perm x (sortDesc xs)).trans (ih.cons x)

theorem insertDesc_pairwise (s : Suggestion) (l : List Suggestion)
    (h : l.Pairwise (fun a b => b.confidence ≤ a.confidence)) :
    (insertDesc s l).Pairwise (fun a b => b.confidence ≤ a.confidence) := by
  induction l with
  | nil => simp [insertDesc]
  | cons y t ih =>
    rw [insertDesc]
    rcases List.pairwise_cons.mp h with ⟨hy, ht⟩
    split
    · rename_i hle
      refine List.pairwise_cons.mpr ⟨?_, h⟩
      intro b hb
      rcases List.mem_cons.mp hb with rfl | hb
      · exact hle
      · exact le_trans (hy b hb) hle
    · rename_i hgt
      push_neg at hgt
      refine List.pairwise_cons.mpr ⟨?_, ih ht⟩
      intro b hb
      have hb2 := (insertDesc_perm s t).mem_iff.mp hb
      rcases List.mem_cons.mp hb2 with rfl | hb3
      · exact le_of_lt hgt
      · exact hy b hb3

theorem sortDesc_pairwise (l : List Suggestion) :
    (sortDesc l).Pairwise (fun a b => b.confidence ≤ a.confidence) := by
  induction l with
  | nil => exact List.Pairwise.nil
  | cons x xs ih => exact insertDesc_pairwise x (sortDesc xs) ih

/-- Stability of the insertion step: for any fixed confidence value, the
elements holding it keep their relative order, because an element only
moves past strictly greater confidences. -/
theorem insertDesc_filter (c : ℚ) (s : Suggestion) (l : List Suggestion) :
    (insertDesc s l).filter (fun x => x.confidence = c) =
      (s :: l).filter (fun x => x.confidence = c) := by
  induction l with
  | nil => rfl
  | cons y t ih =>
    rw [insertDesc]
    split
    · rfl
    · rename_i hgt
      push_neg at hgt
      by_cases hy : y.confidence = c
      · by_cases hs : s.confidence = c
        · exact absurd (hs.trans hy.symm) (ne_of_lt hgt)
        · simp only [List.filter_cons, hy, hs, ih]
          simp [List.filter_cons, hs]
      · by_cases hs : s.confidence = c <;>
          simp [List.filter_cons, hy, hs, ih]

theorem sortDesc_filter (c : ℚ) (l : List Suggestion) :
    (sortDesc l).filter (fun x => x.confidence = c) =
      l.filter (fun x => x.confidence = c) := by
  induction l with
  | nil => rfl
  | cons x xs ih =>
    rw [sortDesc, insertDesc_filter]
    simp only [List.filter_cons, ih]

/-! ## Invariants of the category loop -/

theorem weight_bounds :
    ∀ cat ∈ placeCategories, 0 ≤ cat.2.2 ∧ cat.2.2 ≤ 9/10 := by
  intro cat hcat
  fin_cases hcat <;> constructor <;> norm_num

theorem categoryScore_nonneg (combined : List Char)
    (cat : PlaceType × List String × ℚ) (hw : 0 ≤ cat.2.2) :
    0 ≤ categoryScore combined cat := by
  unfold categoryScore
  exact mul_nonneg (div_nonneg (Nat.cast_nonneg _) (Nat.cast_nonneg _)) hw

theorem categoryScore_le (combined : List Char)
    (cat : PlaceType × List String × ℚ) (hw : 0 ≤ cat.2.2)
    (hw2 : cat.2.2 ≤ 9/10) :
    categoryScore combined cat ≤ 9/10 := by
  unfold categoryScore
  have hratio : ((cat.2.1.countP
      (fun kw => hasSub combined (normalizeText (some kw)).data) : ℚ) /
      (cat.2.1.length : ℚ)) ≤ 1 :=
    div_le_one_of_le₀ (Nat.cast_le.mpr (List.countP_le_length _)) (Nat.cast_nonneg _)
  calc _ ≤ cat.2.2 := mul_le_of_le_one_left hw hratio
    _ ≤ 9/10 := hw2

theorem foldl_bestStep_inv (combined : List Char)
    (cats : List (PlaceType × List String × ℚ)) (st : ℚ × Option PlaceType)
    (hcats : ∀ cat ∈ cats, 0 ≤ cat.2.2 ∧ cat.2.2 ≤ 9/10)
    (h0 : 0 ≤ st.1) (h1 : st.1 ≤ 9/10) (h2 : st.2 = none → st.1 = 0) :
    0 ≤ (cats.foldl (bestStep combined) st).1 ∧
      (cats.foldl (bestStep combined) st).1 ≤ 9/10 ∧
      ((cats.foldl (bestStep combined) st).2 = none →
        (cats.foldl (bestStep combined) st).1 = 0) := by
  induction cats generalizing st with
  | nil => exact ⟨h0, h1, h2⟩
  | cons cat cats ih =>
    have hw := hcats cat (List.mem_cons_self cat cats)
    have hrest : ∀ c ∈ cats, 0 ≤ c.2.2 ∧ c.2.2 ≤ 9/10 := fun c hc =>
      hcats c (List.mem_cons_of_mem cat hc)
    simp only [List.foldl_cons]
    by_cases hlt : st.1 < categoryScore combined cat
    · refine ih _ hrest ?_ ?_ ?_
      · simp [bestStep, hlt]
        exact categoryScore_nonneg combined cat hw.1
      · simp [bestStep, hlt]
        exact categoryScore_le combined cat hw.1 hw.2
      · simp [bestStep, hlt]
    · have hstep : bestStep combined st cat = st := by
        simp [bestStep, hlt]
      rw [hstep]
      exact ih st hrest h0 h1 h2

theorem bestCategory_inv (combined : List Char) :
    0 ≤ (bestCategory combined).1 ∧ (bestCategory combined).1 ≤ 9/10 ∧
      ((bestCategory combined).2 = none → (bestCategory combined).1 = 0) := by
  unfold bestCategory
  exact foldl_bestStep_inv combined placeCategories (0, none) weight_bounds
    le_rfl (by norm_num) (fun _ => rfl)

theorem raiseSt_inv (st : ℚ × Option PlaceType) (hp : Bool)
    (h0 : 0 ≤ st.1) (h1 : st.1 ≤ 9/10) (h2 : st.2 = none → st.1 = 0) :
    0 ≤ (raiseSt st hp).1 ∧ (raiseSt st hp).1 ≤ 1 ∧
      ((raiseSt st hp).2 = none → (raiseSt st hp).1 = 0) := by
  unfold raiseSt
  split
  · refine ⟨by norm_num, by norm_num, ?_⟩
    intro hnone
    exact absurd hnone (Option.some_ne_none _)
  · exact ⟨h0, le_trans h1 (by norm_num), h2⟩

theorem finishPlace_inv (st : ℚ × Option PlaceType) (hp : Bool)
    (h0 : 0 ≤ st.1) (h1 : st.1 ≤ 9/10) (h2 : st.2 = none → st.1 = 0) :
    0 ≤ (finishPlace st hp).confidence ∧ (finishPlace st hp).confidence ≤ 1 ∧
      ((finishPlace st hp).placeType = none ↔
        (finishPlace st hp).isPlace = false) := by
  obtain ⟨r0, r1, r2⟩ := raiseSt_inv st hp h0 h1 h2
  unfold finishPlace
  by_cases hok : (1/5 : ℚ) ≤ (raiseSt st hp).1
  · rw [decide_eq_true hok]
    dsimp only
    refine ⟨r0, r1, ?_⟩
    constructor
    · intro hnone
      rw [if_pos rfl] at hnone
      rw [r2 hnone] at hok
      norm_num at hok
    · intro hf
      cases hf
  · rw [decide_eq_false hok]
    dsimp only
    exact ⟨r0, r1, by simp⟩

/-! ## Idempotence of `normalizeText` -/

/-- `c` is outside the domain of the lower-case table. -/
def lowFixed (c : Char) : Bool :=
  lowerTable.all (fun e => !(e.1 == c))

/-- `c` is outside the domain of the NFD table. -/
def nfdFixed (c : Char) : Bool :=
  nfdTable.all (fun e => !(e.1 == c))

theorem lowerTable_range_ok : lowerTable.all (fun e => lowFixed e.2) = true := by
  decide

theorem nfdTable_range_ok :
    nfdTable.all (fun e => !lowFixed e.1 ||
      e.2.all (fun d => lowFixed d && nfdFixed d)) = true := by
  decide

theorem lowFixed_jsLowerChar (c : Char) : lowFixed (jsLowerChar c) = true := by
  unfold jsLowerChar
  cases h : lowerTable.find? (fun e => e.1 == c) with
  | none =>
    have := List.find?_eq_none.mp h
    unfold lowFixed
    rw [List.all_eq_true]
    intro e he
    simpa using this e he
  | some e =>
    have hmem := List.mem_of_find?_eq_some h
    have := List.all_eq_true.mp lowerTable_range_ok e hmem
    simpa using this

theorem jsLowerChar_eq_self (c : Char) (h : lowFixed c = true) :
    jsLowerChar c = c := by
  unfold jsLowerChar
  cases hf : lowerTable.find? (fun e => e.1 == c) with
  | none => rfl
  | some e =>
    have hmem := List.mem_of_find?_eq_some hf
    have hpr := List.find?_some hf
    have := List.all_eq_true.mp h e hmem
    simp only [beq_iff_eq] at hpr
    simp [hpr] at this

theorem nfdChar_eq_self (c : Char) (h : nfdFixed c = true) :
    nfdChar c = [c] := by
  unfold nfdChar
  cases hf : nfdTable.find? (fun e => e.1 == c) with
  | none => rfl
  | some e =>
    have hmem := List.mem_of_find?_eq_some hf
    have hpr := List.find?_some hf
    have := List.all_eq_true.mp h e hmem
    simp only [beq_iff_eq] at hpr
    simp [hpr] at this

theorem nfdChar_good (c : Char) (h : lowFixed c = true) :
    ∀ d ∈ nfdChar c, lowFixed d = true ∧ nfdFixed d = true := by
  intro d hd
  unfold nfdChar at hd
  cases hf : nfdTable.find? (fun e => e.1 == c) with
  | none =>
    rw [hf] at hd
    rcases List.mem_singleton.mp hd with rfl
    refine ⟨h, ?_⟩
    have := List.find?_eq_none.mp hf
    unfold nfdFixed
    rw [List.all_eq_true]
    intro e he
    simpa using this e he
  | some e =>
    rw [hf] at hd
    have hmem := List.mem_of_find?_eq_some hf
    have hpr := List.find?_some hf
    simp only [beq_iff_eq] at hpr
    have hrow := List.all_eq_true.mp nfdTable_range_ok e hmem
    rw [Bool.or_eq_true] at hrow
    rcases hrow with hbad | hgood
    · rw [hpr] at hbad
      simp [h] at hbad
    · have := List.all_eq_true.mp hgood d hd
      simpa using this

theorem wordspace_not_combining (c : Char)
    (h : (isWordChar c || isSpaceJS c) = true) : isCombiningMark c = false := by
  unfold isWordChar isSpaceJS at h
  unfold isCombiningMark
  simp only [Bool.or_eq_true, Bool.and_eq_true, decide_eq_true_eq] at h
  simp only [Bool.and_eq_false_iff, decide_eq_false_iff_not, not_le]
  omega

theorem dropWhile_twice (p : Char → Bool) (l : List Char) :
    (l.dropWhile p).dropWhile p = l.dropWhile p := by
  induction l with
  | nil => rfl
  | cons c t ih =>
    rw [List.dropWhile_cons]
    split
    · exact ih
    · rw [List.dropWhile_cons]
      simp_all

theorem jsTrim_subset (l : List Char) : ∀ c ∈ jsTrim l, c ∈ l := by
  intro c hc
  unfold jsTrim at hc
  rw [List.mem_reverse] at hc
  have h2 := (List.dropWhile_sublist isSpaceJS).mem hc
  rw [List.mem_reverse] at h2
  exact (List.dropWhile_sublist isSpaceJS).mem h2

theorem dropWhile_head_not (p : Char → Bool) :
    ∀ (l : List Char) (h : Char) (t : List Char),
      l.dropWhile p = h :: t → p h = false := by
  intro l
  induction l with
  | nil => intro h t hc; cases hc
  | cons c u ih =>
    intro h t hc
    rw [List.dropWhile_cons] at hc
    split at hc
    · exact ih h t hc
    · rename_i hpc
      cases hc
      simpa using hpc

/-- Trimming on the right preserves "already trimmed on the left". -/
theorem trimR_dropWhile (p : Char → Bool) (u : List Char)
    (hud : u.dropWhile p = u) :
    ((u.reverse.dropWhile p).reverse).dropWhile p =
      (u.reverse.dropWhile p).reverse := by
  cases u with
  | nil => simp
  | cons h t =>
    have hph : p h = false := dropWhile_head_not p (h :: t) h t hud
    rw [List.reverse_cons, List.dropWhile_append]
    split
    · simp [List.dropWhile_cons, hph]
    · rw [List.reverse_append]
      simp [List.dropWhile_cons, hph]

theorem jsTrim_idem (l : List Char) : jsTrim (jsTrim l) = jsTrim l := by
  unfold jsTrim
  rw [trimR_dropWhile isSpaceJS (l.dropWhile isSpaceJS)
    (dropWhile_twice isSpaceJS l)]
  rw [List.reverse_reverse, dropWhile_twice]

theorem map_id_of_mem {l : List Char} {f : Char → Char}
    (h : ∀ c ∈ l, f c = c) : l.map f = l := by
  induction l with
  | nil => rfl
  | cons c t ih =>
    rw [List.map_cons, h c (List.mem_cons_self c t),
      ih (fun d hd => h d (List.mem_cons_of_mem c hd))]

theorem flatMap_id_of_mem {l : List Char} {f : Char → List Char}
    (h : ∀ c ∈ l, f c = [c]) : l.flatMap f = l := by
  induction l with
  | nil => rfl
  | cons c t ih =>
    rw [List.flatMap_cons, h c (List.mem_cons_self c t),
      ih (fun d hd => h d (List.mem_cons_of_mem c hd))]
    rfl

/-- Every character surviving `normChars` is fixed by the lower-case map,
atomic under NFD, not a combining mark, and a word or space character. -/
theorem normChars_mem_good (l : List Char) :
    ∀ c ∈ normChars l, lowFixed c = true ∧ nfdFixed c = true ∧
      (isWordChar c || isSpaceJS c) = true := by
  intro c hc
  unfold normChars at hc
  have h1 := jsTrim_subset _ c hc
  rw [List.mem_filter] at h1
  rcases h1 with ⟨h2, hws⟩
  rw [List.mem_filter] at h2
  rcases h2 with ⟨h3, _⟩
  rcases List.mem_flatMap.mp h3 with ⟨a, ha, hcin⟩
  rcases List.mem_map.mp ha with ⟨b, _, rfl⟩
  have hlow := lowFixed_jsLowerChar b
  rcases nfdChar_good _ hlow c hcin with ⟨hc1, hc2⟩
  exact ⟨hc1, hc2, hws⟩

theorem normChars_idem (l : List Char) :
    normChars (normChars l) = normChars l := by
  have hgood := normChars_mem_good l
  conv_lhs => rw [normChars]
  rw [map_id_of_mem (fun c hc => jsLowerChar_eq_self c (hgood c hc).1)]
  rw [flatMap_id_of_mem (fun c hc => nfdChar_eq_self c (hgood c hc).2.1)]
  rw [List.filter_eq_self.mpr
    (fun c hc => (hgood c (List.mem_filter.mp hc).1).2.2)]
  rw [List.filter_eq_self.mpr (fun c hc => by
    simp [wordspace_not_combining c (hgood c hc).2.2])]
  show jsTrim (normChars l) = normChars l
  rw [normChars, jsTrim_idem]

theorem normalizeText_idem (s : String) :
    normalizeText (some (normalizeText (some s))) = normalizeText (some s) := by
  by_cases hs : s = ""
  · rw [hs]; rfl
  · by_cases hz : normalizeText (some s) = ""
    · rw [hz]; rfl
    · have hinner : normalizeText (some s) = String.mk (normChars s.data) := by
        simp only [normalizeText, if_neg hs]
      conv_lhs => rw [normalizeText]
      rw [if_neg hz, hinner]
      show String.mk (normChars (normChars s.data)) = String.mk (normChars s.data)
      rw [normChars_idem]

/-! ## The negative-indicator veto -/

/-- Every term of `negativeIndicators` is its own normalization (they are
plain lower-case words), so `combinedText.includes(normalizeText(indicator))`
is a plain substring test for the term itself. -/
theorem negList_norm_fixed :
    negativeIndicators.all (fun i => normalizeText (some i) == i) = true := by
  decide

/-- The veto branch of `isPlace`: with truthy title and snippet, any
substring occurrence of a negative term in the normalized combined text
forces `{isPlace: false, placeType: null, confidence: 0.1}`. -/
theorem isPlace_veto (t s : String) (ht : t ≠ "") (hs : s ≠ "")
    (h : ∃ ind ∈ negativeIndicators,
      hasSub (normalizeText (some t) ++ " " ++ normalizeText (some s)).data
        ind.data = true) :
    isPlace (some t) (some s) = ⟨false, none, 1/10⟩ := by
  obtain ⟨ind, hmem, hsub⟩ := h
  have hnorm : normalizeText (some ind) = ind := by
    have := List.all_eq_true.mp negList_norm_fixed ind hmem
    simpa using this
  have hany : (negativeIndicators.any (fun i =>
      hasSub (combinedText (some t) (some s))
        (normalizeText (some i)).data)) = true :=
    List.any_eq_true.mpr ⟨ind, hmem, by rw [hnorm]; exact hsub⟩
  unfold isPlace
  simp [ht, hs, hany]

/-! ## Concrete fixtures for the misspelled-query ranking scenario -/

deriving instance DecidableEq for Except

/-- The place candidate of the spec scenario: misspelled query
`"eifel tower"` against title `"Eiffel Tower"` with a building-type
snippet. -/
def candA : SearchResult := ⟨"Eiffel Tower", "a tall tower", 100, "t1"⟩

/-- An unrelated non-place candidate whose normalized title contains the
query verbatim (raw text overlap 0.9 beats the place candidate's 0.5). -/
def candB : SearchResult := ⟨"The Eifel Tower Song", "a pop song", 50, "t2"⟩

/-- An enrichment collaborator that fails (throws/times out) on every
title. -/
def enrichNone : String → Option SummaryData := fun _ => none

/-! ## Claim theorems -/

/-- C1, counterexample: in the embedded `searchSuggestions`, the place
candidate's Suggestion has confidence 1/2 — not its place-aware
`calculatePlaceConfidence` of 61/100 — and the batch of the spec scenario
ranks the unrelated non-place candidate (confidence 9/10) above the place
candidate, contradicting both halves of the claim. -/
theorem C1_counterexample :
    searchSuggestions "eifel tower" 3 [candA, candB] enrichNone =
      Except.ok [buildSuggestion "eifel tower" enrichNone candB,
        buildSuggestion "eifel tower" enrichNone candA] ∧
    (buildSuggestion "eifel tower" enrichNone candA).confidence ≠
      calculatePlaceConfidence "eifel tower" (some candA.title) (some candA.snippet) ∧
    (isPlace (some candA.title) (some candA.snippet)).isPlace = true ∧
    (isPlace (some candB.title) (some candB.snippet)).isPlace = false ∧
    (buildSuggestion "eifel tower" enrichNone candA).confidence <
      (buildSuggestion "eifel tower" enrichNone candB).confidence := by
  refine ⟨?_, ?_, ?_, ?_, ?_⟩ <;> with_unfolding_all decide

/-- C1, amended: every output Suggestion's confidence is computed with the
plain `calculateConfidence` of its candidate (not the place-aware
`calculatePlaceConfidence`); consequently, in the scenario batch the place
candidate (which alone classifies as a place, confidence 1/2) is ranked
below the unrelated non-place candidate with higher raw text overlap
(confidence 9/10). -/
theorem C1_base_confidence_and_ranking :
    (∀ (q : String) (lim : Nat) (rs : List SearchResult)
        (en : String → Option SummaryData) (l : List Suggestion),
      searchSuggestions q lim rs en = Except.ok l →
      ∀ sug ∈ l, ∃ r ∈ rs,
        sug.confidence =
          calculateConfidence (jsTrimStr q) (some r.title) (some r.snippet)) ∧
    searchSuggestions "eifel tower" 3 [candA, candB] enrichNone =
      Except.ok [buildSuggestion "eifel tower" enrichNone candB,
        buildSuggestion "eifel tower" enrichNone candA] ∧
    isPlace (some candA.title) (some candA.snippet) =
      ⟨true, some .building, 3/10⟩ ∧
    isPlace (some candB.title) (some candB.snippet) = ⟨false, none, 1/10⟩ := by
  refine ⟨?_, ?_, ?_, ?_⟩
  · intro q lim rs en l hok sug hsug
    unfold searchSuggestions at hok
    split at hok
    · cases hok
    · rw [Except.ok.injEq] at hok
      rw [← hok] at hsug
      have h1 := List.take_subset _ _ hsug
      have h2 := (sortDesc_perm _).mem_iff.mp h1
      rcases List.mem_map.mp h2 with ⟨r, hr, rfl⟩
      exact ⟨r, hr, rfl⟩
  · with_unfolding_all decide
  · with_unfolding_all decide
  · with_unfolding_all decide

/-- C1, witness for the universally quantified part of the amended
theorem, instantiated on the scenario batch. -/
theorem C1_base_confidence_and_ranking_witness :
    ∃ r ∈ [candA, candB],
      (buildSuggestion "eifel tower" enrichNone candB).confidence =
        calculateConfidence (jsTrimStr "eifel tower") (some r.title)
          (some r.snippet) :=
  C1_base_confidence_and_ranking.1 "eifel tower" 3 [candA, candB] enrichNone
    [buildSuggestion "eifel tower" enrichNone candB,
      buildSuggestion "eifel tower" enrichNone candA]
    C1_base_confidence_and_ranking.2.1
    (buildSuggestion "eifel tower" enrichNone candB)
    (List.mem_cons_self _ _)

/-- C2, counterexample: on
`"The Eiffel Tower is located in Paris, France."` the capture group stops
at `"Paris,"` (a capitalized span must be directly followed by `,` or
`.`), `"Paris"` is not whitelisted, and `"France"` — preceded by a comma,
not a preposition — is never captured, so the function returns `null`,
not `"France"`. -/
theorem C2_counterexample :
    extractCountryFromSummary
      (some "The Eiffel Tower is located in Paris, France.") = none ∧
    extractCountryFromSummary
      (some "The Eiffel Tower is located in Paris, France.") ≠ some "France" := by
  refine ⟨by decide, by decide⟩

/-- C2, amended: both spec examples return `null` (`"France"` sits after a
comma, and there is no prepositional match in the second), while genuinely
preposition-adjacent whitelisted names are returned, scanning matches in
text order (`"Germany"` before `"France"`). -/
theorem C2_extract_country_examples :
    extractCountryFromSummary
      (some "The Eiffel Tower is located in Paris, France.") = none ∧
    extractCountryFromSummary (some "No location mentioned.") = none ∧
    extractCountryFromSummary (some "The tower is in France.") = some "France" ∧
    extractCountryFromSummary
      (some "built in Germany, then in France.") = some "Germany" := by
  refine ⟨by decide, by decide, by decide, by decide⟩

/-- C3, counterexample: for the one-character query `"a"` and title
`"a"` the normalized title equals the normalized query, yet the
short-query penalty halves the exact-match tier and the result is 1/2,
not 1.0. -/
theorem C3_counterexample :
    normalizeText (some "a") = normalizeText (some "a") ∧
    calculateConfidence "a" (some "a") (some "") = 1/2 ∧
    calculateConfidence "a" (some "a") (some "") ≠ 1 := by
  refine ⟨rfl, ?_, ?_⟩ <;> with_unfolding_all decide

/-- C3, amended: `calculateConfidence` returns exactly 1.0 whenever the
normalized title equals the normalized query, **provided** the raw query
is at least 3 characters long (shorter queries are halved to 0.5 by the
length penalty). -/
theorem C3_exact_title_match_long_query (q t : String) (s : Option String)
    (heq : normalizeText (some q) = normalizeText (some t))
    (hlen : 3 ≤ q.length) :
    calculateConfidence q (some t) s = 1 := by
  unfold calculateConfidence
  dsimp only
  rw [if_pos heq]
  rw [if_neg (by omega : ¬q.length < 3)]
  norm_num

/-- C3, witness: the amended theorem at query `"abc"`, title `"abc"`. -/
theorem C3_exact_title_match_long_query_witness :
    calculateConfidence "abc" (some "abc") none = 1 :=
  C3_exact_title_match_long_query "abc" "abc" none rfl (by decide)

/-- C4, counterexample: `calculateConfidence` with a `null`/`undefined`
query reaches `query.length` in the length-penalty step and throws a
`TypeError` instead of returning a number. -/
theorem C4_counterexample :
    calculateConfidenceJS none (some "Eiffel Tower") (some "a tall tower") =
      Except.error () := rfl

/-- C4, amended: for string-or-missing inputs, `normalize`, `classify`,
`extractCountry` and `clean` degrade to their safe defaults without
raising, and the confidence scorers return a number whenever the query is
a string — but `calculateConfidence` throws for a missing query, and
`calculatePlaceConfidence` throws for a missing query exactly when the
candidate passes the place check (otherwise it returns 0 before touching
the query). -/
theorem C4_safe_defaults_amended :
    normalizeText none = "" ∧ normalizeText (some "") = "" ∧
    (∀ s : Option String, isPlace none s = ⟨false, none, 0⟩) ∧
    (∀ t : Option String, isPlace t none = ⟨false, none, 0⟩) ∧
    (∀ t : Option String, isPlace (some "") t = ⟨false, none, 0⟩) ∧
    (∀ t : Option String, isPlace t (some "") = ⟨false, none, 0⟩) ∧
    extractCountryFromSummary none = none ∧
    extractCountryFromSummary (some "") = none ∧
    cleanSnippet none = "" ∧ cleanSnippet (some "") = "" ∧
    (∀ (q : String) (t s : Option String),
      calculateConfidenceJS (some q) t s = Except.ok (calculateConfidence q t s)) ∧
    (∀ t s : Option String, calculateConfidenceJS none t s = Except.error ()) ∧
    calculatePlaceConfidenceJS none (some "x") (some "y") = Except.ok 0 ∧
    calculatePlaceConfidenceJS none (some "Paris") (some "a city") =
      Except.error () := by
  refine ⟨rfl, rfl, fun s => rfl, ?_, ?_, ?_, rfl, rfl, rfl, rfl,
    fun q t s => rfl, fun t s => rfl, ?_, ?_⟩
  · intro t; unfold isPlace; simp
  · intro t; unfold isPlace; simp
  · intro t; unfold isPlace; simp
  · with_unfolding_all decide
  · with_unfolding_all decide

/-- C5, counterexample: with an empty (falsy) title the `!title` guard
fires before the veto, so a title/snippet pair whose normalized combined
text contains the negative term `"man"` still returns confidence 0, not
0.1. -/
theorem C5_counterexample :
    ("man" ∈ negativeIndicators) ∧
    hasSub (normalizeText (some "") ++ " " ++ normalizeText (some "a man")).data
      "man".data = true ∧
    isPlace (some "") (some "a man") = ⟨false, none, 0⟩ ∧
    (PlaceResult.mk false none 0) ≠ ⟨false, none, 1/10⟩ := by
  refine ⟨by decide, by decide, rfl, ?_⟩
  with_unfolding_all decide

/-- C5, amended: for every **non-empty** title and snippet whose
normalized combined text contains a term of the negative-indicator list,
`isPlace` returns `{isPlace: false, placeType: null, confidence: 0.1}`,
regardless of how many positive place keywords the text contains. -/
theorem C5_negative_veto_nonempty (t s : String) (ht : t ≠ "") (hs : s ≠ "")
    (h : ∃ ind ∈ negativeIndicators,
      hasSub (normalizeText (some t) ++ " " ++ normalizeText (some s)).data
        ind.data = true) :
    isPlace (some t) (some s) = ⟨false, none, 1/10⟩ :=
  isPlace_veto t s ht hs h

/-- C5, witness: a snippet dense in positive keywords (`tower`, `city`,
`park`) is still vetoed by the substring `"man"`. -/
theorem C5_negative_veto_nonempty_witness :
    isPlace (some "Tower Man") (some "a tower city park") =
      ⟨false, none, 1/10⟩ :=
  C5_negative_veto_nonempty "Tower Man" "a tower city park" (by decide)
    (by decide) ⟨"man", by decide, by decide⟩

/-- C6: the ranked output has length at most `returnLimit`, is sorted by
confidence in non-increasing order, and is stable: for every confidence
value the sort preserves the input sublist of suggestions holding it, and
the truncated output's sublist stays an in-order sublist of the input's. -/
theorem C6_rank_sorted_stable_truncated :
    ∀ (q : String) (lim : Nat) (rs : List SearchResult)
      (en : String → Option SummaryData) (l : List Suggestion),
      searchSuggestions q lim rs en = Except.ok l →
      l.length ≤ lim ∧
      l.Pairwise (fun a b => b.confidence ≤ a.confidence) ∧
      (∀ c : ℚ,
        (sortDesc (rs.map (buildSuggestion (jsTrimStr q) en))).filter
            (fun x => x.confidence = c) =
          (rs.map (buildSuggestion (jsTrimStr q) en)).filter
            (fun x => x.confidence = c) ∧
        List.Sublist (l.filter (fun x => x.confidence = c))
          ((rs.map (buildSuggestion (jsTrimStr q) en)).filter
            (fun x => x.confidence = c))) := by
  intro q lim rs en l hok
  unfold searchSuggestions at hok
  split at hok
  · cases hok
  · rw [Except.ok.injEq] at hok
    subst hok
    refine ⟨?_, ?_, ?_⟩
    · rw [List.length_take]
      exact Nat.min_le_left _ _
    · exact (sortDesc_pairwise _).sublist (List.take_sublist _ _)
    · intro c
      refine ⟨sortDesc_filter c _, ?_⟩
      have h1 : List.Sublist
          ((sortDesc (rs.map (buildSuggestion (jsTrimStr q) en))).take lim)
          (sortDesc (rs.map (buildSuggestion (jsTrimStr q) en))) :=
        List.take_sublist _ _
      have h2 := h1.filter (fun x => decide (x.confidence = c))
      rw [sortDesc_filter c _] at h2
      exact h2

/-- C6, witness: the theorem applied to an empty batch. -/
theorem C6_rank_sorted_stable_truncated_witness :
    ([] : List Suggestion).length ≤ 1 ∧
    ([] : List Suggestion).Pairwise (fun a b => b.confidence ≤ a.confidence) ∧
    (∀ c : ℚ,
      (sortDesc (([] : List SearchResult).map
          (buildSuggestion (jsTrimStr "x") enrichNone))).filter
          (fun x => x.confidence = c) =
        (([] : List SearchResult).map
          (buildSuggestion (jsTrimStr "x") enrichNone)).filter
          (fun x => x.confidence = c) ∧
      List.Sublist (([] : List Suggestion).filter (fun x => x.confidence = c))
        ((([] : List SearchResult).map
          (buildSuggestion (jsTrimStr "x") enrichNone)).filter
          (fun x => x.confidence = c))) :=
  C6_rank_sorted_stable_truncated "x" 1 [] enrichNone [] rfl

/-- C7: a failing enrichment collaborator for a candidate yields that
candidate's Suggestion with null thumbnail and country; a candidate's
Suggestion depends on the collaborator only through its own title (so
other candidates are unaffected); and for a valid query the batch always
returns `ok`, never propagating an enrichment failure. -/
theorem C7_enrichment_failure_isolated :
    ∀ (q : String) (en en2 : String → Option SummaryData) (r : SearchResult),
      (en r.title = none →
        (buildSuggestion q en r).thumbnail = none ∧
        (buildSuggestion q en r).country = none) ∧
      (en r.title = en2 r.title →
        buildSuggestion q en r = buildSuggestion q en2 r) ∧
      (∀ (lim : Nat) (rs : List SearchResult), jsTrimStr q ≠ "" →
        ∃ l, searchSuggestions q lim rs en = Except.ok l) := by
  intro q en en2 r
  refine ⟨?_, ?_, ?_⟩
  · intro hfail
    unfold buildSuggestion
    rw [hfail]
    exact ⟨rfl, rfl⟩
  · intro hagree
    unfold buildSuggestion
    rw [hagree]
  · intro lim rs hq
    unfold searchSuggestions
    rw [if_neg (by simpa using hq)]
    exact ⟨_, rfl⟩

/-- C7, witness: a collaborator that fails on `"Eiffel Tower"`, compared
with one that agrees there but succeeds elsewhere. -/
theorem C7_enrichment_failure_isolated_witness :
    ((fun t : String => if t = "Eiffel Tower" then (none : Option SummaryData)
        else some ⟨some "u", none⟩) "Eiffel Tower" = none →
      (buildSuggestion "eifel tower"
        (fun t => if t = "Eiffel Tower" then none
          else some ⟨some "u", none⟩) candA).thumbnail = none ∧
      (buildSuggestion "eifel tower"
        (fun t => if t = "Eiffel Tower" then none
          else some ⟨some "u", none⟩) candA).country = none) ∧
    ((fun t : String => if t = "Eiffel Tower" then (none : Option SummaryData)
        else some ⟨some "u", none⟩) candA.title = enrichNone candA.title →
      buildSuggestion "eifel tower"
          (fun t => if t = "Eiffel Tower" then none
            else some ⟨some "u", none⟩) candA =
        buildSuggestion "eifel tower" enrichNone candA) ∧
    (∀ (lim : Nat) (rs : List SearchResult), jsTrimStr "eifel tower" ≠ "" →
      ∃ l, searchSuggestions "eifel tower" lim rs
        (fun t => if t = "Eiffel Tower" then none
          else some ⟨some "u", none⟩) = Except.ok l) :=
  C7_enrichment_failure_isolated "eifel tower"
    (fun t => if t = "Eiffel Tower" then none else some ⟨some "u", none⟩)
    enrichNone candA

/-- C8: on all inputs the classification confidence lies in [0, 1] and
`placeType` is `none` exactly when `isPlace` is false. -/
theorem C8_classification_invariants (t s : Option String) :
    0 ≤ (isPlace t s).confidence ∧ (isPlace t s).confidence ≤ 1 ∧
    ((isPlace t s).placeType = none ↔ (isPlace t s).isPlace = false) := by
  unfold isPlace
  split
  · exact ⟨le_refl 0, by norm_num, by simp⟩
  · split
    · exact ⟨by norm_num, by norm_num, by simp⟩
    · obtain ⟨h0, h1, h2⟩ := bestCategory_inv (combinedText t s)
      exact finishPlace_inv _ _ h0 h1 h2

/-- C9: `normalizeText` is idempotent on every string, and
`normalize("Café")` lower-cases and strips the diacritic to `"cafe"`. -/
theorem C9_normalize_idempotent :
    (∀ x : String,
      normalizeText (some (normalizeText (some x))) = normalizeText (some x)) ∧
    normalizeText (some "Café") = "cafe" :=
  ⟨normalizeText_idem, by decide⟩

/-- C10, counterexample: with an empty (falsy) title the guard fires
first, so a pair whose normalized combined text contains `"man"` inside
the longer word `"Germany"` (and no negative term as a standalone word)
returns confidence 0, not 0.1. -/
theorem C10_counterexample :
    ("man" ∈ negativeIndicators) ∧
    hasSub (normalizeText (some "") ++ " " ++ normalizeText (some "Germany")).data
      "man".data = true ∧
    (negativeIndicators.any (fun ind =>
      wholeWordAny none
        (normalizeText (some "") ++ " " ++ normalizeText (some "Germany")).data
        [ind])) = false ∧
    isPlace (some "") (some "Germany") = ⟨false, none, 0⟩ := by
  refine ⟨by decide, by decide, by decide, rfl⟩

/-- C10, amended: for every **non-empty** title and snippet, the veto is a
substring test: if any negative term occurs anywhere in the normalized
combined text — even only inside a longer word, with no negative term as a
standalone word — `isPlace` returns
`{isPlace: false, placeType: null, confidence: 0.1}`. -/
theorem C10_veto_substring_not_whole_word (t s : String)
    (ht : t ≠ "") (hs : s ≠ "")
    (hsub : ∃ ind ∈ negativeIndicators,
      hasSub (normalizeText (some t) ++ " " ++ normalizeText (some s)).data
        ind.data = true)
    (_hww : (negativeIndicators.any (fun ind =>
      wholeWordAny none
        (normalizeText (some t) ++ " " ++ normalizeText (some s)).data
        [ind])) = false) :
    isPlace (some t) (some s) = ⟨false, none, 1/10⟩ :=
  isPlace_veto t s ht hs hsub

/-- C10, witness: the title `"Germany"` contains `"man"` only inside a
longer word, names a place, and is still vetoed. -/
theorem C10_veto_substring_not_whole_word_witness :
    isPlace (some "Germany") (some "a country in Europe") =
      ⟨false, none, 1/10⟩ :=
  C10_veto_substring_not_whole_word "Germany" "a country in Europe"
    (by decide) (by decide) ⟨"man", by decide, by decide⟩ (by decide)

end PlaceTimeline
